import Mathlib

/-!
Verification development for the `vae_lm` coordination-and-recovery substrate:
the rank gate (`vae_lm/utils/base.py`), the archive packer/unpacker and the
failure-capture wrapper (`vae_lm/training/utils.py`), and the batch-capture
sink (`vae_lm/utils/logging.py`).

Python code is shallowly embedded: the filesystem is an explicit value threaded
through each operation, tar containers are structured member lists, exceptions
are `Except`/outcome sums, and `os.path` string functions are transcribed
character for character.
-/

namespace VaeLm

/-! ## String primitives (kernel-reducible equivalents of the `str` methods
the source uses) -/

/-- Split a character list at every occurrence of `sep` (the separator is
dropped; empty pieces are kept, as Python's `str.split(sep)` does). -/
def splitCharList (sep : Char) : List Char → List (List Char)
  | [] => [[]]
  | c :: cs =>
    let rest := splitCharList sep cs
    if c = sep then [] :: rest
    else
      match rest with
      | r :: rs => (c :: r) :: rs
      | [] => [[c]]

/-- Split a string on `/`, as `path.split("/")`. -/
def splitSlash (s : String) : List String :=
  (splitCharList '/' s.data).map String.mk

/-- Join path segments with `/` between them. -/
def joinSegs : List String → String
  | [] => ""
  | [s] => s
  | s :: rest => s ++ "/" ++ joinSegs rest

/-- Test that `a` is a character-prefix of `b` (Python `b.startswith(a)`). -/
def startsWithStr (a b : String) : Bool :=
  List.isPrefixOf a.data b.data

/-- Test that `a` is a character-suffix of `b` (Python `b.endswith(a)`). -/
def endsWithStr (a b : String) : Bool :=
  List.isSuffixOf a.data b.data

/-- Parse a decimal digit. -/
def digitVal (c : Char) : Option Nat :=
  if '0' ≤ c ∧ c ≤ '9' then some (c.toNat - 48) else none

/-- Parse a non-empty all-digit character list as a natural number. -/
def parseNatDigits : List Char → Option Nat
  | [] => none
  | ds => go 0 ds
where
  go (acc : Nat) : List Char → Option Nat
    | [] => some acc
    | c :: cs =>
      match digitVal c with
      | some d => go (acc * 10 + d) cs
      | none => none

/-- Python `int(s)` on an environment value: an optional sign followed by digits;
anything else raises `ValueError`, modelled as `none`. -/
def pyInt (s : String) : Option Int :=
  match s.data with
  | '-' :: rest => (parseNatDigits rest).map (fun n => -(n : Int))
  | '+' :: rest => (parseNatDigits rest).map (fun n => (n : Int))
  | ds => (parseNatDigits ds).map (fun n => (n : Int))

/-! ## Path strings (the `os.path` fragment used by the source) -/

/-- Embeds `os.path.commonprefix([a, b])`: the longest common character prefix of the
two strings (a pure string operation, not segment-aware). -/
def prefixCommon (a b : String) : String :=
  String.mk (go a.data b.data)
where
  go : List Char → List Char → List Char
    | x :: xs, y :: ys => if x = y then x :: go xs ys else []
    | _, _ => []

/-- Embeds `os.path.join(path, name)` for the two-argument case used by
`safe_extract`: an absolute second component discards the first. -/
def ospathJoin (path name : String) : String :=
  if startsWithStr "/" name then name
  else if endsWithStr "/" path then path ++ name
  else path ++ "/" ++ name

/-- Segment resolution of `os.path.normpath` on an absolute path, on the
reversed segment list: empty and `.` segments are dropped, `..` pops the
segment below it (at the root, `..` is absorbed). -/
def resolveSegments : List String → List String
  | [] => []
  | seg :: rest =>
    if seg = "" ∨ seg = "." then resolveSegments rest
    else if seg = ".." then
      match resolveSegments rest with
      | [] => []
      | _ :: popped => popped
    else seg :: resolveSegments rest

/-- Embeds `os.path.normpath` on an absolute path (the only case the source feeds it:
`member_path` is a join onto an absolute temp dir and `directory` is the
absolute temp dir itself). -/
def normpathAbs (p : String) : String :=
  let segs := (resolveSegments (splitSlash p).reverse).reverse
  "/" ++ joinSegs segs

/-- Embeds `os.path.abspath(p)`: absolute inputs are normalized, relative inputs are
joined onto the (absolute) working directory first. -/
def abspath (cwd p : String) : String :=
  if startsWithStr "/" p then normpathAbs p
  else normpathAbs (cwd ++ "/" ++ p)

/-- A normalized absolute path `target` is a descendant of the normalized
absolute directory `dir`: equal to it, or strictly below it (separated by a
`/`). This is the property the spec asserts the traversal check validates. -/
def isDescendant (target dir : String) : Bool :=
  target = dir ∨ startsWithStr (dir ++ "/") target

/-! ## Rank gate (`vae_lm/utils/base.py`) -/

/-- A process environment: variable name to value, as `os.environ`. -/
abbrev Env := List (String × String)

def Env.get (env : Env) (key : String) : Option String :=
  (env.find? (fun kv => kv.fst = key)).map Prod.snd

/-- Embeds `_get_rank`: walks the ordered key pair `("RANK", "LOCAL_RANK")`; the first
key that is set is parsed with `int`; if neither is set the rank is 0. -/
def getRank (env : Env) : Option Int :=
  match env.get "RANK" with
  | some v => pyInt v
  | none =>
    match env.get "LOCAL_RANK" with
    | some v => pyInt v
    | none => some 0

/-- The module-level cache `run_on_rank_zero.rank`: resolved once from the
environment as it stands at import time. -/
def cachedRank (importEnv : Env) : Option Int :=
  getRank importEnv

/-- The spec's `isPrimary`: the cached rank equals 0. -/
def isPrimary (rank : Int) : Bool :=
  rank = 0

/-- The `run_on_rank_zero` wrapper applied to an operation `f`: the body runs
and its result is returned only when the cached rank is 0; otherwise the
wrapper falls through and returns `None`. The call-time environment `callEnv`
is a parameter only to record that the wrapper never consults it — the rank it
tests is the one cached from `importEnv`. -/
def runOnRankZero (importEnv : Env) (_callEnv : Env) (f : Unit → α) : Option α :=
  match cachedRank importEnv with
  | some r => if r = 0 then some (f ()) else none
  | none => none

/-! ## Filesystem model

A filesystem maps absolute paths to contents. Ordinary files carry raw bytes
(`files`); archives written by `tarfile` are kept structured (`tars`) — the
source never packs an archive into an archive, so the two kinds never mix.
Directories are listed explicitly. -/

/-- One member of a tar container: its archive-internal name, whether it is a
directory entry, and its bytes (empty for directory entries). -/
structure TarEntry where
  name : String
  isDir : Bool
  content : String
deriving DecidableEq, Repr

structure FS where
  files : List (String × String)
  tars : List (String × List TarEntry)
  dirs : List String
deriving DecidableEq, Repr

/-- The path names an existing file (ordinary or archive). -/
def FS.isFile (fs : FS) (p : String) : Bool :=
  (fs.files.find? (fun f => f.fst = p)).isSome ∨
    (fs.tars.find? (fun f => f.fst = p)).isSome

/-- The path names an existing directory (`Path.is_dir`). -/
def FS.isDirPath (fs : FS) (p : String) : Bool :=
  (fs.dirs.find? (fun d => d = p)).isSome

/-- Embeds `Path.exists`: a file or a directory is at the path. -/
def FS.pathExists (fs : FS) (p : String) : Bool :=
  fs.isFile p ∨ fs.isDirPath p

/-- Bytes of an ordinary file. -/
def FS.readRaw (fs : FS) (p : String) : Option String :=
  (fs.files.find? (fun f => f.fst = p)).map Prod.snd

/-- Members of an archive file. -/
def FS.readTar (fs : FS) (p : String) : Option (List TarEntry) :=
  (fs.tars.find? (fun f => f.fst = p)).map Prod.snd

/-- Create or overwrite an ordinary file. -/
def FS.writeRaw (fs : FS) (p : String) (bytes : String) : FS :=
  ⟨(p, bytes) :: fs.files.filter (fun f => f.fst ≠ p),
    fs.tars.filter (fun f => f.fst ≠ p), fs.dirs⟩

/-- Create or overwrite an archive file. -/
def FS.writeTar (fs : FS) (p : String) (entries : List TarEntry) : FS :=
  ⟨fs.files.filter (fun f => f.fst ≠ p),
    (p, entries) :: fs.tars.filter (fun f => f.fst ≠ p), fs.dirs⟩

/-- Create a directory (no-op when already present). -/
def FS.mkdir (fs : FS) (p : String) : FS :=
  if fs.isDirPath p then fs else ⟨fs.files, fs.tars, p :: fs.dirs⟩

/-- Embeds `shutil.rmtree(p)`: remove the directory and everything below it. -/
def FS.removeTree (fs : FS) (p : String) : FS :=
  let below := fun (q : String) => q = p ∨ startsWithStr (p ++ "/") q
  ⟨fs.files.filter (fun f => ¬ below f.fst),
    fs.tars.filter (fun f => ¬ below f.fst),
    fs.dirs.filter (fun d => ¬ below d)⟩

/-! ## Archive packer (`archive_model`, `vae_lm/training/utils.py`) -/

def CONFIG_NAME : String := "config.json"
def WEIGHTS_NAME : String := "weights.pt"
def METRICS_NAME : String := "metrics.json"

/-- Drop the first `n` characters of a string. -/
def dropChars (n : Nat) (s : String) : String :=
  String.mk (s.data.drop n)

/-- Embeds `tarfile.add(src, arcname)` on a directory source: the directory entry
itself, every sub-directory, and every file below it, with `src` replaced by
`arcname` in each member name. -/
def dirEntries (fs : FS) (src arcname : String) : List TarEntry :=
  ⟨arcname, true, ""⟩ ::
    (fs.dirs.filter (fun d => startsWithStr (src ++ "/") d)).map
      (fun d => ⟨arcname ++ dropChars src.length d, true, ""⟩) ++
    (fs.files.filter (fun f => startsWithStr (src ++ "/") f.fst)).map
      (fun f => ⟨arcname ++ dropChars src.length f.fst, false, f.snd⟩)

/-- Embeds `tarfile.add(src, arcname)`: a file source contributes one member, a
directory source its subtree; a missing source raises `FileNotFoundError`
(`none`). -/
def tarAddPath (fs : FS) (src arcname : String) : Option (List TarEntry) :=
  match fs.readRaw src with
  | some bytes => some [⟨arcname, false, bytes⟩]
  | none => if fs.isDirPath src then some (dirEntries fs src arcname) else none

inductive PackOutcome where
  /-- A precondition check failed: the error was logged and `archive_model`
  returned before opening the output file. -/
  | earlyReturn (missingFile : String)
  | completed
  /-- Case where `archive.add` raised `FileNotFoundError` mid-write; the `with` block
  closed the partially written archive and the exception propagated out of
  `archive_model`. -/
  | raised (missingPath : String)
deriving DecidableEq, Repr

/-- The `archive.add` sequence inside the `with tarfile.open` block: members
accumulate in order; the first missing source aborts the loop, leaving the
members added so far as the (partial) archive on disk. -/
def addLoop (fs : FS) (archive_file : String) (acc : List TarEntry) :
    List (String × String) → FS × PackOutcome
  | [] => (fs.writeTar archive_file acc, .completed)
  | (src, arc) :: rest =>
    match tarAddPath fs src arc with
    | some es => addLoop fs archive_file (acc ++ es) rest
    | none => (fs.writeTar archive_file acc, .raised src)

/-- Embeds `archive_model(serialization_dir, weights, archive_path)`: checks the
weights and metrics files (each with an early return), tests the config file
(the failed test is only logged — control falls through), resolves the archive
path, opens the output archive (creating/truncating the file), then adds
config, weights, metrics and the vocabulary directory in order. -/
def archive_model (fs : FS) (serialization_dir weights : String)
    (archive_path : Option String := none) : FS × PackOutcome :=
  let weights_file := weights ++ "/model.pt"
  if ¬ fs.pathExists weights_file then (fs, .earlyReturn weights_file) else
  let metrics_file := weights ++ "/" ++ METRICS_NAME
  if ¬ fs.pathExists metrics_file then (fs, .earlyReturn metrics_file) else
  -- `if not config_file.exists(): logger.error(...)` — no `return` here;
  -- a missing config is logged but packing continues regardless.
  let config_file := serialization_dir ++ "/" ++ CONFIG_NAME
  let archive_file :=
    match archive_path with
    | some p => if fs.isDirPath p then p ++ "/model.tar.gz" else p
    | none => serialization_dir ++ "/model.tar.gz"
  addLoop fs archive_file []
    [(config_file, CONFIG_NAME),
     (weights_file, WEIGHTS_NAME),
     (metrics_file, METRICS_NAME),
     (serialization_dir ++ "/vocabulary", "vocabulary")]

/-! ## Archive extraction (`extracted_archive`, `vae_lm/training/utils.py`) -/

/-- Embeds `is_within_directory(directory, target)` from `safe_extract`: both
paths are made absolute and the test is that their longest common character
prefix equals the absolute directory — a plain string-prefix test, not a
path-segment test. -/
def is_within_directory (cwd directory target : String) : Bool :=
  let abs_directory := abspath cwd directory
  let abs_target := abspath cwd target
  decide (prefixCommon abs_directory abs_target = abs_directory)

/-- Extract one member at its OS-resolved destination: `tar.extractall` writes
`path/name` and the kernel resolves `.` and `..` segments while doing so. -/
def extractEntry (cwd path : String) (fs : FS) (e : TarEntry) : FS :=
  let dest := abspath cwd (ospathJoin path e.name)
  if e.isDir then fs.mkdir dest else fs.writeRaw dest e.content

def tarExtractAll (cwd path : String) (fs : FS) (entries : List TarEntry) : FS :=
  entries.foldl (extractEntry cwd path) fs

inductive ExtractError where
  /-- The `Exception("Attempted Path Traversal in Tar File")`. -/
  | traversal
  /-- `tarfile.open(..., "r:gz")` failed: missing file or not an archive. -/
  | readError
deriving DecidableEq, Repr

/-- Embeds `safe_extract(tar, path)`: every member name is validated with
`is_within_directory` before anything is extracted; a failure raises with
nothing written; when all members pass, `tar.extractall(path)` writes every
member. -/
def safe_extract (cwd : String) (fs : FS) (path : String)
    (entries : List TarEntry) : FS × Option ExtractError :=
  if entries.all (fun m => is_within_directory cwd path (ospathJoin path m.name)) then
    (tarExtractAll cwd path fs entries, none)
  else (fs, some .traversal)

/-- Observable outcome of running the `extracted_archive` generator up to its
`yield` (the context manager's `__enter__`). -/
structure EnterResult where
  fs : FS
  yielded : Bool
  err : Option ExtractError
deriving DecidableEq, Repr

/-- Embeds `extracted_archive(resolved_archive_file, cleanup)` up to `yield`:
`tempfile.mkdtemp()` creates the temp dir, `tarfile.open(..., "r:gz")` reads
the archive (failure raises), `safe_extract` validates and extracts. When a
step before `yield` raises, the generator's own `finally` removes the temp dir
only when `cleanup` is true. -/
def extracted_archive (cwd : String) (fs : FS) (resolved_archive_file : String)
    (tempdir : String) (cleanup : Bool) : EnterResult :=
  let fs1 := fs.mkdir tempdir
  match fs1.readTar resolved_archive_file with
  | none => ⟨if cleanup then fs1.removeTree tempdir else fs1, false, some .readError⟩
  | some entries =>
    match safe_extract cwd fs1 tempdir entries with
    | (_, some e) => ⟨if cleanup then fs1.removeTree tempdir else fs1, false, some e⟩
    | (fs2, none) => ⟨fs2, true, none⟩

inductive LoadError where
  | extractFailed (e : ExtractError)
  | fileNotFound (p : String)
  | parseFailed (p : String)
  | modelFailed
deriving DecidableEq, Repr

/-- Observable outcome of `load_archive`: the filesystem after the call,
whether a temp extraction dir was created, whether it was removed, and the
returned `Archive` triple or the propagated exception. -/
structure LoadResult (π μ ω : Type) where
  fs : FS
  tempdirCreated : Bool
  tempdirRemoved : Bool
  result : Except LoadError (ω × π × μ)

/-- The body of `load_archive` after the serialization dir is fixed, together
with its `finally`: the temp dir is removed exactly when the local `tempdir`
variable was assigned (`removeAtEnd`), whichever way the body exits.
`parseConfig` embeds `Params.from_file`, `parseMetrics` embeds `json.load`,
`loadModel` embeds the external `VAELmModel.load` (given the parsed config,
the vocabulary path, the weights path and the device); each returns `none`
where the Python call would raise. -/
def loadArchiveBody {π μ ω : Type} (fs : FS) (serialization_dir : String)
    (created removeAtEnd : Bool) (cuda_device : Int)
    (parseConfig : String → Option π) (parseMetrics : String → Option μ)
    (loadModel : π → String → String → Int → Option ω) : LoadResult π μ ω :=
  let fin := fun (f : FS) => if removeAtEnd then f.removeTree serialization_dir else f
  let weights_path := serialization_dir ++ "/" ++ WEIGHTS_NAME
  match fs.readRaw (serialization_dir ++ "/" ++ CONFIG_NAME) with
  | none => ⟨fin fs, created, removeAtEnd,
      .error (.fileNotFound (serialization_dir ++ "/" ++ CONFIG_NAME))⟩
  | some cbytes =>
    match parseConfig cbytes with
    | none => ⟨fin fs, created, removeAtEnd,
        .error (.parseFailed (serialization_dir ++ "/" ++ CONFIG_NAME))⟩
    | some config =>
      match fs.readRaw (serialization_dir ++ "/" ++ METRICS_NAME) with
      | none => ⟨fin fs, created, removeAtEnd,
          .error (.fileNotFound (serialization_dir ++ "/" ++ METRICS_NAME))⟩
      | some mbytes =>
        match parseMetrics mbytes with
        | none => ⟨fin fs, created, removeAtEnd,
            .error (.parseFailed (serialization_dir ++ "/" ++ METRICS_NAME))⟩
        | some metrics =>
          match loadModel config (serialization_dir ++ "/vocabulary")
              weights_path cuda_device with
          | none => ⟨fin fs, created, removeAtEnd, .error .modelFailed⟩
          | some model => ⟨fin fs, created, removeAtEnd, .ok (model, config, metrics)⟩

/-- Embeds `load_archive(archive_file, cuda_device)`. A directory input is
used as the serialization dir directly (the local `tempdir` stays `None`, so
the `finally` removes nothing). Otherwise `extracted_archive(...,
cleanup=False)` extracts into the fresh `tempdir`; if it raises before its
`yield`, `load_archive`'s `tempdir` is still `None` and — `cleanup` being
`False` — neither `finally` removes the created temp dir. -/
def load_archive {π μ ω : Type} (cwd : String) (fs : FS) (archive_file : String)
    (tempdir : String) (cuda_device : Int)
    (parseConfig : String → Option π) (parseMetrics : String → Option μ)
    (loadModel : π → String → String → Int → Option ω) : LoadResult π μ ω :=
  if fs.isDirPath archive_file then
    loadArchiveBody fs archive_file false false cuda_device
      parseConfig parseMetrics loadModel
  else
    let er := extracted_archive cwd fs archive_file tempdir false
    if er.yielded then
      loadArchiveBody er.fs tempdir true true cuda_device
        parseConfig parseMetrics loadModel
    else
      ⟨er.fs, true, false,
        .error (.extractFailed (match er.err with | some e => e | none => .readError))⟩

/-! ## Failure capture (`configure_world`, `vae_lm/training/utils.py`) -/

/-- An opaque batch payload (`torch.Tensor`); `Batch.empty` stands for the
default `torch.Tensor()` used when a record carries no batch. -/
inductive Batch where
  | empty
  | tensor (id : Nat)
deriving DecidableEq, Repr

/-- An error escaping the wrapped run function; `except Exception` catches
both variants. -/
inductive RunError where
  | torchBatchError (message : String) (batch : Batch)
  | otherError (message : String)
deriving DecidableEq, Repr

/-- Python `repr` of a plain string — what `TorchBatchError.__str__` returns
(`repr(self.message)`) — for messages without quotes or escapes. -/
def pyRepr (s : String) : String := "'" ++ s ++ "'"

/-- What `logger.error(error)` renders. -/
def strOfRunError : RunError → String
  | .torchBatchError m _ => pyRepr m
  | .otherError m => m

/-- The `extra` fields bound onto a loguru record. -/
structure DiagRecord where
  message : Option String
  batch : Option Batch
  serialization_dir : Option String
  metrics : Option (List (String × Int))
deriving DecidableEq, Repr

/-- Embeds `pathlib.Path(p).stem`: the final path component with its last
suffix removed (a suffix needs a dot that is neither the first nor the last
character of the name). -/
def pathStem (p : String) : String :=
  let comps := (splitSlash p).filter (fun s => decide (s ≠ ""))
  let base := match comps.getLast? with | some b => b | none => ""
  let rev := base.data.reverse
  match rev.findIdx? (fun c => c = '.') with
  | some i =>
    if 0 < i ∧ i + 1 < rev.length then String.mk ((rev.drop (i + 1)).reverse)
    else base
  | none => base

/-- What the `configure_world` wrapper's caller observes: a returned result
dict, or a propagated exception (the `FileNotFoundError` out of
`archive_model`). -/
inductive WrapperOutcome (ρ : Type) where
  | returned (result : ρ)
  | raised (missingPath : String)
deriving DecidableEq, Repr

/-- Side effects of one wrapper call: the filesystem afterwards, the loguru
records dispatched with a bound batch, the errors logged, and the wandb
`save`/`finish` calls issued. -/
structure WorldEffects where
  fs : FS
  dispatched : List DiagRecord
  loggedErrors : List String
  wandbSaved : List String
  wandbFinished : Bool
deriving DecidableEq, Repr

/-- Embeds the `wrapper` produced by `configure_world(func)`. The wrapped run
function is an external collaborator, represented by its outcome
(`runOutcome`): a result dict, or a raised error. A `TorchBatchError` binds
`{batch, serialization_dir=Path(...).stem, message=str(error)}` onto a debug
record before the error is logged; any caught error replaces the result with
`{}`. The `finally` block then runs the master-rank finalization; an exception
raised there (the `FileNotFoundError` that `archive_model` raises mid-write)
replaces the pending return and propagates to the wrapper's caller. wandb
calls are external effects, recorded and assumed not to raise. -/
def configure_world {ν : Type} (fs : FS) (process_rank : Int)
    (use_wandb : Bool) (serialization_dir : String)
    (runOutcome : Except RunError (List (String × ν))) :
    WrapperOutcome (List (String × ν)) × WorldEffects :=
  let recs : List DiagRecord :=
    match runOutcome with
    | .error (.torchBatchError m b) =>
      [⟨some (pyRepr m), some b, some (pathStem serialization_dir), none⟩]
    | _ => []
  let logged : List String :=
    match runOutcome with
    | .error e => [strOfRunError e]
    | .ok _ => []
  let result : List (String × ν) :=
    match runOutcome with
    | .ok r => r
    | .error _ => []
  if process_rank = 0 then
    let best_model := serialization_dir ++ "/best-model"
    if fs.pathExists best_model then
      match archive_model fs serialization_dir best_model with
      | (fs1, .raised p) => (.raised p, ⟨fs1, recs, logged, [], false⟩)
      | (fs1, _) =>
        let saved := if use_wandb ∧ fs1.pathExists best_model
          then [serialization_dir ++ "/model.tar.gz"] else []
        (.returned result, ⟨fs1, recs, logged, saved, use_wandb⟩)
    else
      (.returned result, ⟨fs, recs, logged, [], use_wandb⟩)
  else
    (.returned result, ⟨fs, recs, logged, [], false⟩)

/-! ## Batch-capture sink (`SaveBatchHandler`, `vae_lm/utils/logging.py`) -/

structure DateTime where
  day : Nat
  month : Nat
  year : Nat
  hour : Nat
  minute : Nat
  second : Nat
deriving DecidableEq, Repr

/-- Zero-pad to two digits (`%d`, `%m`, `%H`, `%M`). -/
def pad2 (n : Nat) : String :=
  if n < 10 then "0" ++ toString n else toString n

/-- Embeds `time.strftime("%d-%m-%Y_%H-%M")`: there is no seconds component in
the rendered name. -/
def fileSuffix (t : DateTime) : String :=
  pad2 t.day ++ "-" ++ pad2 t.month ++ "-" ++ toString t.year ++ "_" ++
    pad2 t.hour ++ "-" ++ pad2 t.minute

/-- The destination of one capture:
`error-batches/<jobKey>/batch_<suffix>.pt` under the working directory. -/
def capturePath (cwd jobKey : String) (t : DateTime) : String :=
  cwd ++ "/error-batches/" ++ jobKey ++ "/batch_" ++ fileSuffix t ++ ".pt"

/-- Byte image of `torch.save({"message": m, "batch": b})`. -/
def encodeCapture (message : String) (batch : Batch) : String :=
  "capture:" ++ message ++ ":" ++
    (match batch with
     | .empty => "tensor()"
     | .tensor i => "tensor(" ++ toString i ++ ")")

/-- Embeds `SaveBatchHandler.emit` (decorated with `@run_on_rank_zero`): on
rank 0, ensure `error-batches/` and the per-job directory exist, then
`torch.save` the message and batch under the minute-timestamped name,
overwriting any file already there. A record with no `serialization_dir`
field would make `Path / None` raise inside the handler, writing nothing
(that case never arises from `configure_world`). -/
def saveBatchEmit (cwd : String) (rank : Int) (fs : FS) (record : DiagRecord)
    (now : DateTime) : FS :=
  if rank = 0 then
    match record.serialization_dir with
    | some jobKey =>
      let fs1 := (fs.mkdir (cwd ++ "/error-batches")).mkdir
        (cwd ++ "/error-batches/" ++ jobKey)
      fs1.writeRaw (capturePath cwd jobKey now)
        (encodeCapture (match record.message with | some m => m | none => "")
          (match record.batch with | some b => b | none => .empty))
    | none => fs
  else fs

/-- Modelled from the spec: `vae_lm/utils/filters.py` (the `Filter` class) is
not present under `src/`; per spec §4.2 a sink's predicate is a pure function
of the record's field set, and `Filter(type="has_attr", condition=attr)` tests
that the record carries the named extra field. -/
def hasAttr (r : DiagRecord) (attr : String) : Bool :=
  if attr = "batch" then r.batch.isSome
  else if attr = "metrics" then r.metrics.isSome
  else if attr = "message" then r.message.isSome
  else if attr = "serialization_dir" then r.serialization_dir.isSome
  else false

/-- The `setup_logging` registration relevant to batch capture: a record is
delivered to `SaveBatchHandler` exactly when it has a `batch` field (multicast
dispatch; the wandb sink acts outside the filesystem and is not modelled
here). -/
def dispatchToSaveBatch (cwd : String) (rank : Int) (fs : FS) (r : DiagRecord)
    (now : DateTime) : FS :=
  if hasAttr r "batch" then saveBatchEmit cwd rank fs r now else fs

/-! ## Metric formatting (`description_from_metrics`, `log_metrics`) -/

/-- A value in a metrics dict. Python floats are restricted to the 4-decimal
fixed-point grid the source renders (`{v:.4f}`): `num v` stands for the number
`v / 10^4`. Non-numeric payloads (DataFrames and such) are `other`. -/
inductive PyVal where
  | num (scaled : Int)
  | other (tag : String)
deriving DecidableEq, Repr

/-- Zero-pad to four digits. -/
def pad4 (n : Nat) : String :=
  if n < 10 then "000" ++ toString n
  else if n < 100 then "00" ++ toString n
  else if n < 1000 then "0" ++ toString n
  else toString n

def format4Core (n : Nat) : String :=
  toString (n / 10000) ++ "." ++ pad4 (n % 10000)

/-- Render `f"{x:.4f}"` for a fixed-point value scaled by `10^4`. -/
def format4 (v : Int) : String :=
  if v < 0 then "-" ++ format4Core (-v).toNat else format4Core v.toNat

/-- Embeds `sep.join(items)`. -/
def joinWith (sep : String) : List String → String
  | [] => ""
  | [s] => s
  | s :: rest => s ++ sep ++ joinWith sep rest

/-- Embeds `str.ljust(width)`. -/
def ljust (s : String) (width : Nat) : String :=
  s ++ String.mk (List.replicate (width - s.length) ' ')

/-- Embeds `str.lower()`. -/
def pyLower (s : String) : String := String.mk (s.data.map Char.toLower)

/-- The sort key `lambda x: (len(x), x)` as an order: ascending name length,
then code-point lexicographic order as the tie-break. -/
def metricsKeyLe (a b : String) : Prop :=
  a.length < b.length ∨ (a.length = b.length ∧ a ≤ b)

instance : DecidableRel metricsKeyLe := fun a b => by
  unfold metricsKeyLe; infer_instance

instance : IsTotal String metricsKeyLe := by
  constructor
  intro a b
  rcases Nat.lt_trichotomy a.length b.length with h | h | h
  · exact Or.inl (Or.inl h)
  · rcases le_total a b with h2 | h2
    · exact Or.inl (Or.inr ⟨h, h2⟩)
    · exact Or.inr (Or.inr ⟨h.symm, h2⟩)
  · exact Or.inr (Or.inl h)

instance : IsTrans String metricsKeyLe := by
  constructor
  intro a b c hab hbc
  rcases hab with h1 | ⟨e1, l1⟩
  · rcases hbc with h2 | ⟨e2, _⟩
    · exact Or.inl (h1.trans h2)
    · exact Or.inl (e2 ▸ h1)
  · rcases hbc with h2 | ⟨e2, l2⟩
    · exact Or.inl (e1 ▸ h2)
    · exact Or.inr ⟨e1.trans e2, le_trans l1 l2⟩

/-- Embeds `sorted(metrics, key=lambda x: (len(x), x))` (iterating a dict
yields its keys in insertion order; `sorted` reorders them). -/
def sortedMetricKeys (metrics : List (String × PyVal)) : List String :=
  List.insertionSort metricsKeyLe (metrics.map Prod.fst)

/-- Embeds `metrics.get(k)`: the value at the key, `None` when absent. -/
def dictGet (metrics : List (String × PyVal)) (k : String) : Option PyVal :=
  (metrics.find? (fun kv => kv.fst = k)).map Prod.snd

/-- One iteration of `log_metrics`' loop: a line is emitted only when the
value is numeric (`isinstance(metric_value, (float, int))`). -/
def renderMetricLine (metrics : List (String × PyVal)) (maxLen : Nat)
    (k : String) : Option String :=
  match dictGet metrics k with
  | some (.num v) => some (ljust k maxLen ++ " | " ++ format4 v)
  | _ => none

/-- Embeds `max(len(x) for x in metrics)`: `ValueError` (`none`) on an empty
key set. -/
def maxKeyLength : List String → Option Nat
  | [] => none
  | k :: ks => some (ks.foldl (fun m s => Nat.max m s.length) k.length)

/-- Observable output of one `log_metrics` call: the `logger.info` lines in
order, whether the trailing `logger.bind(metrics=...).debug` fired, and
whether a `ValueError` escaped. -/
structure LogOutput where
  lines : List String
  metricsBound : Bool
  raised : Bool
deriving DecidableEq, Repr

/-- Embeds `log_metrics(mode_str, metrics, info)`. The decorator
`@run_on_rank_zero` makes the body run only when the cached rank is 0; other
ranks return `None` with no effect. On rank 0 the header line is logged first;
`max(len(x) for x in metrics)` then raises `ValueError` on an empty dict; on a
non-empty dict each key is rendered in `(len, lexicographic)` order, numeric
values only, and the final metrics-bound debug record is dispatched. -/
def log_metrics (rank : Int) (mode_str : String)
    (metrics : List (String × PyVal))
    (info : Option (List (String × String))) : LogOutput :=
  if rank = 0 then
    let header :=
      match info with
      | some kvs =>
        mode_str ++ ": info -- " ++
          joinWith ", " (kvs.map (fun kv => pyLower (kv.fst ++ ": " ++ kv.snd)))
      | none => mode_str
    match maxKeyLength (metrics.map Prod.fst) with
    | none => ⟨[header], false, true⟩
    | some maxLen =>
      ⟨header :: (sortedMetricKeys metrics).filterMap (renderMetricLine metrics maxLen),
        true, false⟩
  else ⟨[], false, false⟩

/-! ## Reference semantics for `description_from_metrics` -/

abbrev MetricsDict := List (String × Int)

/-- A tiny heap of dict objects: Python names hold references (indices) and
`pop` mutates the referenced object in place. -/
structure Heap where
  objs : List MetricsDict
deriving DecidableEq, Repr

def Heap.get (h : Heap) (r : Nat) : MetricsDict := h.objs.getD r []

def Heap.set (h : Heap) (r : Nat) (d : MetricsDict) : Heap := ⟨h.objs.set r d⟩

def Heap.alloc (h : Heap) (d : MetricsDict) : Heap × Nat :=
  (⟨h.objs ++ [d]⟩, h.objs.length)

/-- Embeds `dict.pop(k)`: removes and returns the value, mutating the
referenced dict; `none` is the `KeyError` case (dict left unchanged). -/
def dictPop (h : Heap) (r : Nat) (k : String) : Heap × Option Int :=
  let d := h.get r
  match (d.find? (fun kv => kv.fst = k)).map Prod.snd with
  | some v => (h.set r (d.filter (fun kv => kv.fst ≠ k)), some v)
  | none => (h, none)

/-- Embeds `copy.deepcopy` on a metrics dict: a fresh object with equal
contents. -/
def deepcopyDict (h : Heap) (r : Nat) : Heap × Nat := h.alloc (h.get r)

/-- Embeds `description_from_metrics(metrics)`: deep-copy the dict, pop
`"loss"` from the copy (a missing key raises `KeyError`, the `none` result),
and render the remaining items after the loss prefix. -/
def description_from_metrics (h : Heap) (r : Nat) : Heap × Option String :=
  let hr := deepcopyDict h r
  let hp := dictPop hr.fst hr.snd "loss"
  match hp.snd with
  | none => (hp.fst, none)
  | some v =>
    let loss := "loss: " ++ format4 v ++ ", "
    (hp.fst, some (loss ++
      joinWith ", "
        ((hp.fst.get hr.snd).map (fun kv => kv.fst ++ ": " ++ format4 kv.snd)) ++
      " ||"))

end VaeLm

namespace VaeLm

/-! ## Sanity examples -/

example : prefixCommon "/tmp/d" "/tmp/dX" = "/tmp/d" := by decide
example : normpathAbs "/tmp/d/../dX" = "/tmp/dX" := by decide
example : getRank [("LOCAL_RANK", "3"), ("RANK", "1")] = some 1 := by decide
example : getRank [("LOCAL_RANK", "3")] = some 3 := by decide
example : getRank [] = some 0 := by decide
example : pathStem "/runs/exp01" = "exp01" := by decide
example : pathStem "/runs/model.tar.gz" = "model.tar" := by decide
example : fileSuffix ⟨7, 3, 2024, 9, 5, 42⟩ = "07-03-2024_09-05" := by decide
example : format4 12345 = "1.2345" := by decide
example : format4 987000 = "98.7000" := by decide
example :
    archive_model
      ⟨[("/ser/config.json", "C"), ("/w/model.pt", "W"), ("/w/metrics.json", "M"),
        ("/ser/vocabulary/tokens.txt", "V")], [], ["/ser", "/w", "/ser/vocabulary"]⟩
      "/ser" "/w" none =
    (⟨[("/ser/config.json", "C"), ("/w/model.pt", "W"), ("/w/metrics.json", "M"),
        ("/ser/vocabulary/tokens.txt", "V")],
      [("/ser/model.tar.gz",
        [⟨"config.json", false, "C"⟩, ⟨"weights.pt", false, "W"⟩,
         ⟨"metrics.json", false, "M"⟩, ⟨"vocabulary", true, ""⟩,
         ⟨"vocabulary/tokens.txt", false, "V"⟩])],
      ["/ser", "/w", "/ser/vocabulary"]⟩, .completed) := by decide

/-! ## Claim theorems -/

/-- C7: the current rank is resolved by checking `RANK` first and
`LOCAL_RANK` second, defaulting to 0 when neither is set; it is a function of
the import-time environment only (the cache is never re-resolved from the
call-time environment); `isPrimary` holds exactly for rank 0; and a
`run_on_rank_zero`-gated operation executes and returns its result if and
only if the cached rank equals 0, returning the empty `None` result
otherwise. -/
theorem rank_gate_spec {α : Type} (env : Env) (f : Unit → α) :
    (∀ v, env.get "RANK" = some v → getRank env = pyInt v) ∧
    (env.get "RANK" = none →
      ∀ v, env.get "LOCAL_RANK" = some v → getRank env = pyInt v) ∧
    (env.get "RANK" = none → env.get "LOCAL_RANK" = none → getRank env = some 0) ∧
    (∀ r : Int, isPrimary r = true ↔ r = 0) ∧
    (∀ callEnv, runOnRankZero env callEnv f =
      if cachedRank env = some 0 then some (f ()) else none) ∧
    (∀ callEnv callEnv', runOnRankZero env callEnv f = runOnRankZero env callEnv' f) := by
  refine ⟨?_, ?_, ?_, ?_, ?_, fun _ _ => rfl⟩
  · intro v hv; unfold getRank; rw [hv]
  · intro h v hv; unfold getRank; rw [h, hv]
  · intro h1 h2; unfold getRank; rw [h1, h2]
  · intro r; unfold isPrimary; simp
  · intro callEnv
    unfold runOnRankZero
    cases h : cachedRank env with
    | none => simp [h]
    | some r =>
      by_cases hr : r = 0
      · simp [h, hr]
      · simp [h, hr]

/-- Witness for `rank_gate_spec` at a concrete environment. -/
theorem rank_gate_spec_witness :
    getRank [("RANK", "2"), ("LOCAL_RANK", "0")] = some 2 ∧
    runOnRankZero [("RANK", "2"), ("LOCAL_RANK", "0")] [] (fun _ => (7 : Nat)) = none := by
  have h := rank_gate_spec (α := Nat) [("RANK", "2"), ("LOCAL_RANK", "0")] (fun _ => 7)
  constructor
  · have h1 := h.1 "2" (by decide)
    rw [h1]; decide
  · have h5 := h.2.2.2.2.1 []
    rw [h5]
    have hc : cachedRank [("RANK", "2"), ("LOCAL_RANK", "0")] = some 2 := by decide
    rw [hc]; simp

/-- C10: on the primary rank, `log_metrics` with an empty metrics dict raises
(`max(len(x) for x in metrics)` over an empty key set is a `ValueError`)
rather than logging nothing, and on every non-primary rank `log_metrics`
returns without effect for any input. -/
theorem log_metrics_empty_and_nonprimary (rank : Int) (mode : String)
    (metrics : List (String × PyVal)) (info : Option (List (String × String))) :
    ((log_metrics 0 mode [] info).raised = true) ∧
    (rank ≠ 0 → log_metrics rank mode metrics info = ⟨[], false, false⟩) := by
  constructor
  · rfl
  · intro h; unfold log_metrics; rw [if_neg h]

/-- Witness for `log_metrics_empty_and_nonprimary` on a non-primary rank. -/
theorem log_metrics_empty_and_nonprimary_witness :
    (1 : Int) ≠ 0 ∧ log_metrics 1 "train" [("loss", PyVal.num 3)] none = ⟨[], false, false⟩ :=
  ⟨by decide,
    (log_metrics_empty_and_nonprimary 1 "train" [("loss", PyVal.num 3)] none).2 (by decide)⟩

/-- C1 (the code contradicts it): with the weights and metrics artifacts
present but `config.json` absent, `archive_model` logs the failed config
check yet — that check lacks a `return` — proceeds to open the output
archive. The pack does not abort cleanly: an (empty, partial) `model.tar.gz`
is created at the resolved path and `FileNotFoundError` escapes mid-write,
where the claim requires all four preconditions to be checked before any byte
is written and no output file to be produced. -/
theorem archive_model_missing_config_writes_partial :
    (archive_model
      ⟨[("/w/model.pt", "W"), ("/w/metrics.json", "M"),
        ("/ser/vocabulary/tokens.txt", "V")], [], ["/ser", "/w", "/ser/vocabulary"]⟩
      "/ser" "/w" none).snd = .raised "/ser/config.json" ∧
    (archive_model
      ⟨[("/w/model.pt", "W"), ("/w/metrics.json", "M"),
        ("/ser/vocabulary/tokens.txt", "V")], [], ["/ser", "/w", "/ser/vocabulary"]⟩
      "/ser" "/w" none).fst.isFile "/ser/model.tar.gz" = true ∧
    (FS.isFile
      ⟨[("/w/model.pt", "W"), ("/w/metrics.json", "M"),
        ("/ser/vocabulary/tokens.txt", "V")], [], ["/ser", "/w", "/ser/vocabulary"]⟩
      "/ser/config.json") = false ∧
    (FS.isFile
      ⟨[("/w/model.pt", "W"), ("/w/metrics.json", "M"),
        ("/ser/vocabulary/tokens.txt", "V")], [], ["/ser", "/w", "/ser/vocabulary"]⟩
      "/ser/model.tar.gz") = false := by decide

/-- C2 counterexample: a member named `../extX` resolves to `/tmp/extX`,
outside the extraction directory `/tmp/ext`, yet the `commonprefix` test of
`is_within_directory` accepts it (a string-prefix test, not a path-descent
test), so extraction raises no `TraversalError` and writes the member's bytes
outside the extraction root. -/
theorem unpack_escape_counterexample :
    is_within_directory "/" "/tmp/ext" (ospathJoin "/tmp/ext" "../extX") = true ∧
    isDescendant (abspath "/" (ospathJoin "/tmp/ext" "../extX")) "/tmp/ext" = false ∧
    (extracted_archive "/" ⟨[], [("/a/model.tar.gz", [⟨"../extX", false, "evil"⟩])], []⟩
      "/a/model.tar.gz" "/tmp/ext" false).err = none ∧
    (extracted_archive "/" ⟨[], [("/a/model.tar.gz", [⟨"../extX", false, "evil"⟩])], []⟩
      "/a/model.tar.gz" "/tmp/ext" false).fs.readRaw "/tmp/extX" = some "evil" := by decide

/-- C3 counterexample: on the primary rank, with a best-model checkpoint
present but `config.json` missing, the `finally` finalization calls
`archive_model`, whose mid-write `FileNotFoundError` is outside the `except`
and propagates out of the wrapper — the run error (`boom`) was absorbed, yet
the caller still sees an exception. -/
theorem configure_world_propagates_finalization_error :
    (configure_world (ν := Nat)
      ⟨[("/ser/best-model/model.pt", "W"), ("/ser/best-model/metrics.json", "M")],
        [], ["/ser", "/ser/best-model", "/ser/vocabulary"]⟩
      0 false "/ser" (.error (.otherError "boom"))).fst
      = .raised "/ser/config.json" := by decide

/-- C4 counterexample: the capture file name has minute resolution
(`%d-%m-%Y_%H-%M`), so two captures for the same job in the same minute —
here 5 s and 59 s past the minute — share one path: the second `torch.save`
overwrites the first and only one capture file remains. -/
theorem capture_same_minute_overwrites :
    capturePath "/cwd" "job" ⟨1, 2, 2024, 3, 4, 5⟩ =
      capturePath "/cwd" "job" ⟨1, 2, 2024, 3, 4, 59⟩ ∧
    (⟨1, 2, 2024, 3, 4, 5⟩ : DateTime) ≠ ⟨1, 2, 2024, 3, 4, 59⟩ ∧
    (dispatchToSaveBatch "/cwd" 0
      (dispatchToSaveBatch "/cwd" 0 ⟨[], [], []⟩
        ⟨some "'bad batch'", some (.tensor 7), some "job", none⟩ ⟨1, 2, 2024, 3, 4, 5⟩)
      ⟨some "'bad batch 2'", some (.tensor 8), some "job", none⟩
      ⟨1, 2, 2024, 3, 4, 59⟩).readRaw (capturePath "/cwd" "job" ⟨1, 2, 2024, 3, 4, 5⟩)
      = some (encodeCapture "'bad batch 2'" (.tensor 8)) ∧
    (dispatchToSaveBatch "/cwd" 0
      (dispatchToSaveBatch "/cwd" 0 ⟨[], [], []⟩
        ⟨some "'bad batch'", some (.tensor 7), some "job", none⟩ ⟨1, 2, 2024, 3, 4, 5⟩)
      ⟨some "'bad batch 2'", some (.tensor 8), some "job", none⟩
      ⟨1, 2, 2024, 3, 4, 59⟩).files.length = 1 := by decide

/-- C6 counterexample: when extraction itself fails (here: a traversal
rejection), `extracted_archive` was entered with `cleanup=False` and
`load_archive`'s own `tempdir` variable is still `None`, so neither `finally`
removes the freshly created temp dir — it leaks, where the claim requires
removal on every exit path. -/
theorem load_archive_extraction_failure_leaks_tempdir :
    (load_archive "/" ⟨[], [("/a/model.tar.gz", [⟨"../../etc/passwd", false, "x"⟩])], ["/a"]⟩
      "/a/model.tar.gz" "/tmp/t1" (-1)
      (fun _ => (none : Option Nat)) (fun _ => (none : Option Nat))
      (fun _ _ _ _ => (none : Option Nat))).tempdirCreated = true ∧
    (load_archive "/" ⟨[], [("/a/model.tar.gz", [⟨"../../etc/passwd", false, "x"⟩])], ["/a"]⟩
      "/a/model.tar.gz" "/tmp/t1" (-1)
      (fun _ => (none : Option Nat)) (fun _ => (none : Option Nat))
      (fun _ _ _ _ => (none : Option Nat))).tempdirRemoved = false ∧
    (load_archive "/" ⟨[], [("/a/model.tar.gz", [⟨"../../etc/passwd", false, "x"⟩])], ["/a"]⟩
      "/a/model.tar.gz" "/tmp/t1" (-1)
      (fun _ => (none : Option Nat)) (fun _ => (none : Option Nat))
      (fun _ _ _ _ => (none : Option Nat))).fs.isDirPath "/tmp/t1" = true := by decide

/-! ## Helper lemmas -/

lemma prefixCommon_go_of_isPrefixOf (a b : List Char)
    (h : List.isPrefixOf a b = true) : prefixCommon.go a b = a := by
  induction a generalizing b with
  | nil => cases b <;> rfl
  | cons x xs ih =>
    cases b with
    | nil => simp [List.isPrefixOf] at h
    | cons y ys =>
      simp only [List.isPrefixOf, Bool.and_eq_true, beq_iff_eq] at h
      unfold prefixCommon.go
      rw [if_pos h.1, ih ys h.2, h.1]

lemma prefixCommon_of_le (a b : String) (h : List.isPrefixOf a.data b.data = true) :
    prefixCommon a b = a := by
  unfold prefixCommon
  rw [prefixCommon_go_of_isPrefixOf a.data b.data h]

lemma is_within_directory_of_descendant (cwd directory target : String)
    (h : isDescendant (abspath cwd target) (abspath cwd directory) = true) :
    is_within_directory cwd directory target = true := by
  unfold isDescendant at h
  unfold is_within_directory
  rw [decide_eq_true_iff]
  simp only [Bool.or_eq_true, decide_eq_true_iff] at h
  rcases h with h | h
  · rw [h]
    exact prefixCommon_of_le _ _ (by simp [List.isPrefixOf_iff_prefix])
  · apply prefixCommon_of_le
    rw [List.isPrefixOf_iff_prefix]
    unfold startsWithStr at h
    rw [List.isPrefixOf_iff_prefix] at h
    calc (abspath cwd directory).data
        <+: (abspath cwd directory).data ++ "/".data := List.prefix_append _ _
      _ = (abspath cwd directory ++ "/").data := rfl
      _ <+: (abspath cwd target).data := h

lemma fs_files_mkdir (fs : FS) (d : String) : (fs.mkdir d).files = fs.files := by
  unfold FS.mkdir; split <;> rfl

lemma fs_isDirPath_mkdir_self (fs : FS) (d : String) :
    (fs.mkdir d).isDirPath d = true := by
  unfold FS.mkdir
  split
  · assumption
  · simp [FS.isDirPath, List.find?]

lemma extracted_archive_not_yielded_fs (cwd : String) (fs : FS)
    (raf tempdir : String)
    (h : (extracted_archive cwd fs raf tempdir false).yielded = false) :
    (extracted_archive cwd fs raf tempdir false).fs = fs.mkdir tempdir := by
  simp only [extracted_archive] at h ⊢
  cases hr : (fs.mkdir tempdir).readTar raf with
  | none => simp [hr]
  | some entries =>
    cases hs : safe_extract cwd (fs.mkdir tempdir) tempdir entries with
    | mk fs2 oe =>
      simp only [hr, hs] at h ⊢
      cases oe with
      | none => simp at h
      | some e => simp

lemma loadArchiveBody_flags {π μ ω : Type} (fs : FS) (sd : String) (cr rm : Bool)
    (dev : Int) (pc : String → Option π) (pm : String → Option μ)
    (lm : π → String → String → Int → Option ω) :
    (loadArchiveBody fs sd cr rm dev pc pm lm).tempdirCreated = cr ∧
    (loadArchiveBody fs sd cr rm dev pc pm lm).tempdirRemoved = rm := by
  refine ⟨?_, ?_⟩ <;> (simp only [loadArchiveBody]; repeat' split) <;> rfl

/-- C2 amended: every member is validated with the `commonprefix` test before
any member is written — a failing member rejects the whole archive with a
traversal error and the filesystem is untouched — and every member that
genuinely resolves to a descendant of the extraction directory passes the
test; the test is however only a string-prefix check, so certain
non-descendant destinations also pass (see the counterexample). -/
theorem safe_extract_fails_closed (cwd : String) (fs : FS) (path : String)
    (entries : List TarEntry) :
    ((∃ e ∈ entries, is_within_directory cwd path (ospathJoin path e.name) = false) →
      safe_extract cwd fs path entries = (fs, some .traversal)) ∧
    ((∀ e ∈ entries,
        isDescendant (abspath cwd (ospathJoin path e.name)) (abspath cwd path) = true) →
      safe_extract cwd fs path entries = (tarExtractAll cwd path fs entries, none)) := by
  constructor
  · rintro ⟨e, he, hbad⟩
    unfold safe_extract
    rw [if_neg]
    intro hall
    rw [List.all_eq_true] at hall
    have := hall e he
    rw [hbad] at this
    exact Bool.false_ne_true this
  · intro hall
    unfold safe_extract
    rw [if_pos]
    rw [List.all_eq_true]
    intro e he
    exact is_within_directory_of_descendant cwd path (ospathJoin path e.name) (hall e he)

/-- Witness for `safe_extract_fails_closed`: a `..`-escaping member is
rejected with nothing extracted. -/
theorem safe_extract_fails_closed_witness :
    safe_extract "/" ⟨[], [], []⟩ "/tmp/d" [⟨"../../x", false, "p"⟩] =
      (⟨[], [], []⟩, some .traversal) :=
  (safe_extract_fails_closed "/" ⟨[], [], []⟩ "/tmp/d" [⟨"../../x", false, "p"⟩]).1
    ⟨⟨"../../x", false, "p"⟩, by decide, by decide⟩

/-- C6 amended: `load_archive` removes the temp extraction dir on every exit
path that runs after a successful extraction — success, config/metrics parse
failure and model-construction failure alike (the parse and model collaborators
are arbitrary here) — and removes nothing when the input is an already
extracted directory; but when extraction itself fails, the freshly created
temp dir is not removed (`cleanup=False` plus a still-unassigned `tempdir`),
so it leaks. -/
theorem load_archive_cleanup_paths {π μ ω : Type} (cwd : String) (fs : FS)
    (archive_file tempdir : String) (dev : Int)
    (pc : String → Option π) (pm : String → Option μ)
    (lm : π → String → String → Int → Option ω) :
    (fs.isDirPath archive_file = true →
      (load_archive cwd fs archive_file tempdir dev pc pm lm).tempdirCreated = false ∧
      (load_archive cwd fs archive_file tempdir dev pc pm lm).tempdirRemoved = false) ∧
    (fs.isDirPath archive_file = false →
      (extracted_archive cwd fs archive_file tempdir false).yielded = true →
      (load_archive cwd fs archive_file tempdir dev pc pm lm).tempdirCreated = true ∧
      (load_archive cwd fs archive_file tempdir dev pc pm lm).tempdirRemoved = true) ∧
    (fs.isDirPath archive_file = false →
      (extracted_archive cwd fs archive_file tempdir false).yielded = false →
      (load_archive cwd fs archive_file tempdir dev pc pm lm).tempdirCreated = true ∧
      (load_archive cwd fs archive_file tempdir dev pc pm lm).tempdirRemoved = false ∧
      (load_archive cwd fs archive_file tempdir dev pc pm lm).fs =
        fs.mkdir tempdir ∧
      (load_archive cwd fs archive_file tempdir dev pc pm lm).fs.isDirPath tempdir
        = true) := by
  refine ⟨?_, ?_, ?_⟩
  · intro h
    unfold load_archive
    rw [if_pos h]
    exact loadArchiveBody_flags _ _ _ _ _ _ _ _
  · intro h hy
    unfold load_archive
    rw [if_neg (by rw [h]; exact Bool.false_ne_true), if_pos hy]
    exact loadArchiveBody_flags _ _ _ _ _ _ _ _
  · intro h hy
    unfold load_archive
    rw [if_neg (by rw [h]; exact Bool.false_ne_true),
      if_neg (by rw [hy]; exact Bool.false_ne_true)]
    refine ⟨rfl, rfl, ?_, ?_⟩
    · exact extracted_archive_not_yielded_fs cwd fs archive_file tempdir hy
    · rw [extracted_archive_not_yielded_fs cwd fs archive_file tempdir hy]
      exact fs_isDirPath_mkdir_self fs tempdir

/-- Witness for `load_archive_cleanup_paths`: a well-formed archive is
extracted and the temp dir is removed even though config parsing then
fails. -/
theorem load_archive_cleanup_paths_witness :
    (load_archive "/" ⟨[], [("/a/model.tar.gz", [⟨"config.json", false, "C"⟩])], ["/a"]⟩
      "/a/model.tar.gz" "/tmp/t1" (-1)
      (fun _ => (none : Option Nat)) (fun _ => (none : Option Nat))
      (fun _ _ _ _ => (none : Option Nat))).tempdirCreated = true ∧
    (load_archive "/" ⟨[], [("/a/model.tar.gz", [⟨"config.json", false, "C"⟩])], ["/a"]⟩
      "/a/model.tar.gz" "/tmp/t1" (-1)
      (fun _ => (none : Option Nat)) (fun _ => (none : Option Nat))
      (fun _ _ _ _ => (none : Option Nat))).tempdirRemoved = true :=
  (load_archive_cleanup_paths "/"
      ⟨[], [("/a/model.tar.gz", [⟨"config.json", false, "C"⟩])], ["/a"]⟩
      "/a/model.tar.gz" "/tmp/t1" (-1)
      (fun _ => (none : Option Nat)) (fun _ => (none : Option Nat))
      (fun _ _ _ _ => (none : Option Nat))).2.1 (by decide) (by decide)

/-- C3 amended: every error raised by the run function (either variant) is
caught and logged and the run's result is replaced by the empty map; the
wrapper returns that map on every non-primary rank unconditionally, and on
the primary rank whenever the finalization's `archive_model` call does not
itself raise — when it does raise, the exception propagates to the wrapper's
caller (see the counterexample). -/
theorem configure_world_error_policy {ν : Type} (fs : FS) (rank : Int)
    (uw : Bool) (sd : String) (run : Except RunError (List (String × ν))) :
    (rank ≠ 0 → (configure_world fs rank uw sd run).fst =
      .returned (match run with | .ok r => r | .error _ => [])) ∧
    (rank = 0 →
      (∀ p, (archive_model fs sd (sd ++ "/best-model")).snd ≠ .raised p) →
      (configure_world fs rank uw sd run).fst =
        .returned (match run with | .ok r => r | .error _ => [])) ∧
    (∀ e, run = .error e →
      (configure_world fs rank uw sd run).snd.loggedErrors = [strOfRunError e]) := by
  refine ⟨?_, ?_, ?_⟩
  · intro h
    unfold configure_world
    rw [if_neg h]
  · intro h harch
    subst h
    unfold configure_world
    rw [if_pos rfl]
    cases hbm : fs.pathExists (sd ++ "/best-model") with
    | false => rw [if_neg (by rw [hbm]; exact Bool.false_ne_true)]
    | true =>
      rw [if_pos hbm]
      cases ha : archive_model fs sd (sd ++ "/best-model") with
      | mk fs1 out =>
        cases out with
        | earlyReturn p => rfl
        | completed => rfl
        | raised p =>
          exact absurd (by rw [ha]) (harch p)
  · intro e he
    subst he
    simp only [configure_world]
    repeat' split
    all_goals rfl

/-- Witness for `configure_world_error_policy`: on a non-primary rank a run
error is absorbed into an empty result map. -/
theorem configure_world_error_policy_witness :
    (configure_world (ν := Nat) ⟨[], [], []⟩ 1 false "/ser"
      (.error (.otherError "boom"))).fst = .returned [] :=
  (configure_world_error_policy ⟨[], [], []⟩ 1 false "/ser"
    (.error (.otherError "boom"))).1 (by decide)

/-! ## Association-list and string helper lemmas -/

lemma find?_filter_ne {α : Type} (l : List (String × α)) (p q : String)
    (h : q ≠ p) :
    ((l.filter (fun f => f.fst ≠ p)).find? (fun f => f.fst = q)) =
      l.find? (fun f => f.fst = q) := by
  induction l with
  | nil => rfl
  | cons a t ih =>
    by_cases hp : a.fst = p
    · have hq : (decide (a.fst = q)) = false := by
        simp only [decide_eq_false_iff_not]
        exact fun e => h (e.symm.trans hp)
      rw [List.filter_cons, if_neg (by simp [hp]), ih, List.find?_cons, hq]
    · rw [List.filter_cons, if_pos (by simp [hp]), List.find?_cons, List.find?_cons]
      cases hq : decide (a.fst = q) with
      | true => rfl
      | false => exact ih

lemma fs_readRaw_writeRaw_self (fs : FS) (p c : String) :
    (fs.writeRaw p c).readRaw p = some c := by
  simp [FS.writeRaw, FS.readRaw, List.find?_cons]

lemma fs_readRaw_writeRaw_ne (fs : FS) (p c q : String) (h : q ≠ p) :
    (fs.writeRaw p c).readRaw q = fs.readRaw q := by
  have hpq : (decide (p = q)) = false := by
    simp only [decide_eq_false_iff_not]
    exact fun e => h e.symm
  simp only [FS.writeRaw, FS.readRaw, List.find?_cons]
  rw [hpq, find?_filter_ne fs.files p q h]

lemma fs_readRaw_mkdir (fs : FS) (d q : String) :
    (fs.mkdir d).readRaw q = fs.readRaw q := by
  unfold FS.readRaw
  rw [fs_files_mkdir]

lemma str_data_append (a b : String) : (a ++ b).data = a.data ++ b.data := by
  cases a; cases b; rfl

lemma append_middle_cancel (x s s' c : String)
    (h : x ++ s ++ c = x ++ s' ++ c) : s = s' := by
  have hd := congrArg String.data h
  simp only [str_data_append, List.append_assoc] at hd
  have h1 := List.append_cancel_left hd
  have h2 := List.append_cancel_right h1
  exact congrArg String.mk h2

/-- C4 amended: a `TorchBatchError` makes the wrapper dispatch exactly one
record carrying `{message=str(error), batch, jobKey=Path(sd).stem}`;
delivering that record through the `has_attr("batch")` filter writes exactly
one capture under `error-batches/<jobKey>/` (every other file is untouched)
at a name timestamped at minute resolution: seconds do not enter the name,
and two capture paths for one job coincide exactly when their rendered minute
strings do — so a same-minute recapture overwrites, while captures whose
rendered minute strings differ never collide. -/
theorem batch_capture_policy {ν : Type} (fs fsd : FS) (cwd sd msg : String)
    (b : Batch) (uw : Bool) (now : DateTime) :
    ((configure_world (ν := ν) fs 0 uw sd
        (.error (.torchBatchError msg b))).snd.dispatched =
      [⟨some (pyRepr msg), some b, some (pathStem sd), none⟩]) ∧
    ((dispatchToSaveBatch cwd 0 fsd
        ⟨some (pyRepr msg), some b, some (pathStem sd), none⟩ now).readRaw
        (capturePath cwd (pathStem sd) now) =
      some (encodeCapture (pyRepr msg) b)) ∧
    (∀ q, q ≠ capturePath cwd (pathStem sd) now →
      (dispatchToSaveBatch cwd 0 fsd
        ⟨some (pyRepr msg), some b, some (pathStem sd), none⟩ now).readRaw q =
        fsd.readRaw q) ∧
    (∀ d mo y hh mi s s',
      fileSuffix ⟨d, mo, y, hh, mi, s⟩ = fileSuffix ⟨d, mo, y, hh, mi, s'⟩) ∧
    (∀ t t' : DateTime,
      capturePath cwd (pathStem sd) t = capturePath cwd (pathStem sd) t' ↔
        fileSuffix t = fileSuffix t') := by
  refine ⟨?_, ?_, ?_, fun _ _ _ _ _ _ _ => rfl, ?_⟩
  · simp only [configure_world]
    repeat' split
    all_goals rfl
  · simp only [dispatchToSaveBatch, hasAttr, saveBatchEmit]
    exact fs_readRaw_writeRaw_self _ _ _
  · intro q hq
    show (((fsd.mkdir (cwd ++ "/error-batches")).mkdir
        (cwd ++ "/error-batches/" ++ pathStem sd)).writeRaw
        (capturePath cwd (pathStem sd) now)
        (encodeCapture (pyRepr msg) b)).readRaw q = fsd.readRaw q
    rw [fs_readRaw_writeRaw_ne _ _ _ _ hq, fs_readRaw_mkdir, fs_readRaw_mkdir]
  · intro t t'
    constructor
    · intro h
      exact append_middle_cancel
        (cwd ++ "/error-batches/" ++ pathStem sd ++ "/batch_")
        (fileSuffix t) (fileSuffix t') ".pt" h
    · intro h
      unfold capturePath
      rw [h]

/-- Witness for `batch_capture_policy`: one capture is durably written at the
per-job minute-stamped path. -/
theorem batch_capture_policy_witness :
    (dispatchToSaveBatch "/cwd" 0 ⟨[], [], []⟩
      ⟨some (pyRepr "bad"), some (.tensor 3), some (pathStem "/runs/exp01"), none⟩
      ⟨1, 2, 2024, 3, 4, 5⟩).readRaw
      (capturePath "/cwd" (pathStem "/runs/exp01") ⟨1, 2, 2024, 3, 4, 5⟩) =
      some (encodeCapture (pyRepr "bad") (.tensor 3)) :=
  (batch_capture_policy (ν := Nat) ⟨[], [], []⟩ ⟨[], [], []⟩ "/cwd" "/runs/exp01"
    "bad" (.tensor 3) false ⟨1, 2, 2024, 3, 4, 5⟩).2.1

/-! ## Heap lemmas -/

lemma heap_get_append_fresh (objs : List MetricsDict) (d : MetricsDict) :
    Heap.get ⟨objs ++ [d]⟩ objs.length = d := by
  unfold Heap.get
  rw [List.getD_eq_getElem?_getD, List.getElem?_append_right (le_refl _)]
  simp

lemma heap_get_append_old (objs : List MetricsDict) (d : MetricsDict) (r : Nat)
    (hr : r < objs.length) : Heap.get ⟨objs ++ [d]⟩ r = Heap.get ⟨objs⟩ r := by
  unfold Heap.get
  rw [List.getD_eq_getElem?_getD, List.getD_eq_getElem?_getD,
    List.getElem?_append_left hr]

lemma heap_get_set_ne (objs : List MetricsDict) (i r : Nat) (h : r ≠ i)
    (d : MetricsDict) : Heap.get ⟨objs.set i d⟩ r = Heap.get ⟨objs⟩ r := by
  unfold Heap.get
  rw [List.getD_eq_getElem?_getD, List.getD_eq_getElem?_getD,
    List.getElem?_set_ne (Ne.symm h)]

/-- C9: for every heap and dict reference whose dict contains a `loss` key,
`description_from_metrics` returns a description string and leaves the
caller's dict exactly as it was — the `pop` mutates only the fresh deep
copy. -/
theorem description_from_metrics_preserves_input (h : Heap) (r : Nat)
    (hr : r < h.objs.length)
    (hl : ((h.get r).find? (fun kv => kv.fst = "loss")).isSome = true) :
    ((description_from_metrics h r).fst.get r = h.get r) ∧
    ((description_from_metrics h r).snd.isSome = true) := by
  obtain ⟨kv, hkv⟩ := Option.isSome_iff_exists.mp hl
  simp only [description_from_metrics, deepcopyDict, dictPop, Heap.alloc]
  rw [heap_get_append_fresh h.objs (h.get r), hkv]
  simp only [Option.map_some']
  refine ⟨?_, rfl⟩
  simp only [Heap.set]
  rw [heap_get_set_ne _ _ _ (Nat.ne_of_lt hr) _,
    heap_get_append_old _ _ _ hr]

/-- Witness for `description_from_metrics_preserves_input` on a concrete
heap. -/
theorem description_from_metrics_preserves_input_witness :
    ((description_from_metrics ⟨[[("loss", 12345), ("acc", 987000)]]⟩ 0).fst.get 0 =
      [("loss", 12345), ("acc", 987000)]) ∧
    ((description_from_metrics ⟨[[("loss", 12345), ("acc", 987000)]]⟩ 0).snd.isSome = true) := by
  have h := description_from_metrics_preserves_input
    ⟨[[("loss", 12345), ("acc", 987000)]]⟩ 0 (by decide) (by decide)
  exact ⟨h.1.trans (by decide), h.2⟩

/-! ## Sorting and padding lemmas -/

lemma le_foldl_max (ks : List String) (a : Nat) :
    a ≤ ks.foldl (fun m s => Nat.max m s.length) a := by
  induction ks generalizing a with
  | nil => exact le_refl a
  | cons k t ih =>
    exact le_trans (Nat.le_max_left a k.length) (ih (Nat.max a k.length))

lemma mem_le_foldl_max (ks : List String) (a : Nat) :
    ∀ k ∈ ks, k.length ≤ ks.foldl (fun m s => Nat.max m s.length) a := by
  induction ks generalizing a with
  | nil => intro k hk; cases hk
  | cons x t ih =>
    intro k hk
    rcases List.mem_cons.mp hk with rfl | hk2
    · exact le_trans (Nat.le_max_right a k.length) (le_foldl_max t _)
    · exact ih _ k hk2

lemma maxKeyLength_ge (ks : List String) (m : Nat)
    (hm : maxKeyLength ks = some m) : ∀ k ∈ ks, k.length ≤ m := by
  cases ks with
  | nil => simp [maxKeyLength] at hm
  | cons k0 t =>
    intro k hk
    have hm2 : t.foldl (fun m s => Nat.max m s.length) k0.length = m := by
      simpa [maxKeyLength] using hm
    rw [← hm2]
    rcases List.mem_cons.mp hk with rfl | hk2
    · exact le_foldl_max t _
    · exact mem_le_foldl_max t _ k hk2

lemma ljust_length (s : String) (m : Nat) (h : s.length ≤ m) :
    (ljust s m).length = m := by
  unfold ljust
  rw [String.length_append]
  have hrep : (String.mk (List.replicate (m - s.length) ' ')).length
      = m - s.length := by
    show (List.replicate (m - s.length) ' ').length = m - s.length
    exact List.length_replicate _ _
  rw [hrep]
  exact Nat.add_sub_cancel' h

lemma filterMap_eq_map_getD {α β : Type} (f : α → Option β) (dflt : β)
    (l : List α) (h : ∀ a ∈ l, (f a).isSome = true) :
    l.filterMap f = l.map (fun a => (f a).getD dflt) := by
  induction l with
  | nil => rfl
  | cons a t ih =>
    obtain ⟨b, hb⟩ := Option.isSome_iff_exists.mp (h a (List.mem_cons_self a t))
    rw [List.filterMap_cons, List.map_cons, hb]
    simp only [Option.getD_some]
    rw [ih (fun x hx => h x (List.mem_cons_of_mem a hx))]

lemma renderMetricLine_isSome (metrics : List (String × PyVal)) (m : Nat)
    (hnum : ∀ kv ∈ metrics, ∃ v, kv.snd = PyVal.num v)
    (k : String) (hk : k ∈ metrics.map Prod.fst) :
    (renderMetricLine metrics m k).isSome = true := by
  obtain ⟨kv, hkv, hfst⟩ := List.mem_map.mp hk
  have hf : (metrics.find? (fun kv => kv.fst = k)).isSome = true := by
    rw [List.find?_isSome]
    exact ⟨kv, hkv, by simp [hfst]⟩
  obtain ⟨kv0, hkv0⟩ := Option.isSome_iff_exists.mp hf
  have hmem := List.mem_of_find?_eq_some hkv0
  obtain ⟨v, hv⟩ := hnum kv0 hmem
  unfold renderMetricLine dictGet
  rw [hkv0]
  simp [hv]

/-- C8: on the primary rank, `log_metrics` on a non-empty all-numeric metrics
dict renders exactly the key sequence sorted by ascending name length with
lexicographic tie-break (a permutation of the dict's keys), one line per key
after the header, each key right-padded to the length of the longest key. -/
theorem log_metrics_order_and_padding (mode : String)
    (metrics : List (String × PyVal)) (m : Nat)
    (hnum : ∀ kv ∈ metrics, ∃ v, kv.snd = PyVal.num v)
    (hm : maxKeyLength (metrics.map Prod.fst) = some m) :
    (sortedMetricKeys metrics).Perm (metrics.map Prod.fst) ∧
    List.Sorted metricsKeyLe (sortedMetricKeys metrics) ∧
    (∀ k ∈ metrics.map Prod.fst, (ljust k m).length = m) ∧
    (log_metrics 0 mode metrics none).lines =
      mode :: (sortedMetricKeys metrics).map
        (fun k => (renderMetricLine metrics m k).getD "") := by
  have hperm : (sortedMetricKeys metrics).Perm (metrics.map Prod.fst) :=
    List.perm_insertionSort metricsKeyLe (metrics.map Prod.fst)
  refine ⟨hperm,
    List.sorted_insertionSort metricsKeyLe (metrics.map Prod.fst), ?_, ?_⟩
  · intro k hk
    exact ljust_length k m (maxKeyLength_ge _ m hm k hk)
  · simp only [log_metrics]
    rw [if_pos trivial, hm]
    show mode :: (sortedMetricKeys metrics).filterMap (renderMetricLine metrics m) =
      mode :: (sortedMetricKeys metrics).map
        (fun k => (renderMetricLine metrics m k).getD "")
    rw [filterMap_eq_map_getD (renderMetricLine metrics m) ""
      (sortedMetricKeys metrics)
      (fun k hk => renderMetricLine_isSome metrics m hnum k (hperm.mem_iff.mp hk))]

/-- Witness for `log_metrics_order_and_padding`: the spec's own example
`{"loss": 1.2345, "acc": 98.7}` renders `acc` first and `loss` second, both
padded to width 4. -/
theorem log_metrics_order_and_padding_witness :
    (log_metrics 0 "Validation"
      [("loss", PyVal.num 12345), ("acc", PyVal.num 987000)] none).lines =
      ["Validation", "acc  | 98.7000", "loss | 1.2345"] := by
  have h := log_metrics_order_and_padding "Validation"
    [("loss", PyVal.num 12345), ("acc", PyVal.num 987000)] 4
    (by
      intro kv hkv
      rcases List.mem_cons.mp hkv with rfl | h2
      · exact ⟨12345, rfl⟩
      · rcases List.mem_cons.mp h2 with rfl | h3
        · exact ⟨987000, rfl⟩
        · cases h3)
    (by decide)
  rw [h.2.2.2]
  decide

/-! ## Round trip -/

lemma loadArchiveBody_ok {π μ ω : Type} (fs : FS) (sd : String) (cr rm : Bool)
    (dev : Int) (pc : String → Option π) (pm : String → Option μ)
    (lm : π → String → String → Int → Option ω)
    (cbytes mbytes : String) (cfg : π) (mv : μ) (mdl : ω)
    (h1 : fs.readRaw (sd ++ "/" ++ CONFIG_NAME) = some cbytes)
    (h2 : pc cbytes = some cfg)
    (h3 : fs.readRaw (sd ++ "/" ++ METRICS_NAME) = some mbytes)
    (h4 : pm mbytes = some mv)
    (h5 : lm cfg (sd ++ "/vocabulary") (sd ++ "/" ++ WEIGHTS_NAME) dev = some mdl) :
    (loadArchiveBody fs sd cr rm dev pc pm lm).result = .ok (mdl, cfg, mv) := by
  simp only [loadArchiveBody, h1, h2, h3, h4, h5]

set_option maxHeartbeats 1600000 in
/-- C5: packing a source tree holding all four artifacts (config bytes `c`,
weights bytes `w`, metrics bytes `m`, a vocabulary file `v`) succeeds, and
unpacking the produced archive hands the model loader the extracted weights
and vocabulary and returns exactly the values parsed from the original
`config.json` and `metrics.json` bytes — the configuration tree and metrics
map of the round trip are identical, field for field, to the originals, for
arbitrary parsers and model loader. -/
theorem pack_unpack_roundtrip {π μ ω : Type} (c w m v : String)
    (pc : String → Option π) (pm : String → Option μ)
    (lm : π → String → String → Int → Option ω)
    (cfg : π) (mv : μ) (mdl : ω)
    (hpc : pc c = some cfg) (hpm : pm m = some mv)
    (hlm : lm cfg "/tmp/t1/vocabulary" "/tmp/t1/weights.pt" (-1) = some mdl) :
    (archive_model
      ⟨[("/ser/config.json", c), ("/w/model.pt", w), ("/w/metrics.json", m),
        ("/ser/vocabulary/tokens.txt", v)], [], ["/ser", "/w", "/ser/vocabulary"]⟩
      "/ser" "/w" none).snd = .completed ∧
    (load_archive "/"
      (archive_model
        ⟨[("/ser/config.json", c), ("/w/model.pt", w), ("/w/metrics.json", m),
          ("/ser/vocabulary/tokens.txt", v)], [], ["/ser", "/w", "/ser/vocabulary"]⟩
        "/ser" "/w" none).fst
      "/ser/model.tar.gz" "/tmp/t1" (-1) pc pm lm).result = .ok (mdl, cfg, mv) := by
  refine ⟨rfl, ?_⟩
  have hstep : (load_archive "/"
      (archive_model
        ⟨[("/ser/config.json", c), ("/w/model.pt", w), ("/w/metrics.json", m),
          ("/ser/vocabulary/tokens.txt", v)], [], ["/ser", "/w", "/ser/vocabulary"]⟩
        "/ser" "/w" none).fst
      "/ser/model.tar.gz" "/tmp/t1" (-1) pc pm lm).result =
      (loadArchiveBody
        (extracted_archive "/"
          (archive_model
            ⟨[("/ser/config.json", c), ("/w/model.pt", w), ("/w/metrics.json", m),
              ("/ser/vocabulary/tokens.txt", v)], [],
              ["/ser", "/w", "/ser/vocabulary"]⟩
            "/ser" "/w" none).fst
          "/ser/model.tar.gz" "/tmp/t1" false).fs
        "/tmp/t1" true true (-1) pc pm lm).result := rfl
  rw [hstep]
  refine loadArchiveBody_ok _ "/tmp/t1" _ _ _ _ _ _ c m _ _ _ ?_ hpc ?_ hpm ?_
  · rfl
  · rfl
  · exact hlm

/-- Witness for `pack_unpack_roundtrip` at concrete artifact bytes and
parsers. -/
theorem pack_unpack_roundtrip_witness :
    (load_archive "/"
      (archive_model
        ⟨[("/ser/config.json", "CFG"), ("/w/model.pt", "W"),
          ("/w/metrics.json", "MET"), ("/ser/vocabulary/tokens.txt", "V")], [],
          ["/ser", "/w", "/ser/vocabulary"]⟩
        "/ser" "/w" none).fst
      "/ser/model.tar.gz" "/tmp/t1" (-1)
      (fun s => if s = "CFG" then some 1 else none)
      (fun s => if s = "MET" then some 2 else none)
      (fun _ _ _ _ => some 3)).result = .ok (3, 1, 2) :=
  (pack_unpack_roundtrip "CFG" "W" "MET" "V"
    (fun s => if s = "CFG" then some 1 else none)
    (fun s => if s = "MET" then some 2 else none)
    (fun _ _ _ _ => some (3 : Nat)) 1 2 3
    (by decide) (by decide) (by decide)).2

end VaeLm
